import Mathlib

set_option maxRecDepth 8000

/-!
Verification development for the `documentcloud-cloud-vision-ocr` add-on
(`src/main.py`).  The core logic is embedded shallowly:

* `listBlobsOrder` models the ordering performed by `list_blobs`
  (line 133): `sorted(blobs_list, key=lambda blob: len(blob.name))`,
  i.e. a *stable* sort on key length only.  Blobs are modelled by their
  name strings.
* `setDocText` models `set_doc_text` (lines 137-203).  JSON payloads are
  modelled by typed records whose fields are `Option`s (a `none` field is
  an absent JSON key).  Python dictionary subscription `d["k"]` is
  `getKey`, raising `KeyError`; list subscription `l[n]` is `pyIndex`,
  raising `IndexError`; `d.get("k", 0)` is `Option.getD`.
  The `try/except` at lines 191-200 catches `KeyError` and `ValueError`
  (turning them into a message plus `sys.exit(1)`, modelled by
  `Stop.fatalExit`), while any other exception (notably `IndexError`)
  escapes unhandled (`Stop.unhandled`).  Reaching the final
  `client.patch` call of line 203 with page list `ps` is modelled by the
  result `Except.ok ps`.
-/

/-- Python exceptions that the shard-processing code can raise.
`keyErr k` is `KeyError` on missing dictionary key `k`; `indexErr` is
`IndexError` on out-of-range list subscription; `valueErr` is
`ValueError` (caught by the handler at line 195 but never raised by the
body itself). -/
inductive PyErr where
  | keyErr (k : String)
  | indexErr
  | valueErr
deriving DecidableEq, Repr

/-- Python `d["k"]` on a typed optional field: the value, or `KeyError`. -/
def getKey {α : Type} (o : Option α) (k : String) : Except PyErr α :=
  match o with
  | some a => Except.ok a
  | none => Except.error (PyErr.keyErr k)

/-- Python `l[n]`: the element, or `IndexError` when `n` is out of range. -/
def pyIndex {α : Type} (l : List α) (n : Nat) : Except PyErr α :=
  match l.get? n with
  | some a => Except.ok a
  | none => Except.error PyErr.indexErr

/-- Left-to-right effectful map over `Except`, mirroring a Python `for`
loop that stops at the first raised exception. -/
def exMapM {α β : Type} (f : α → Except PyErr β) : List α → Except PyErr (List β)
  | [] => Except.ok []
  | a :: l =>
    match f a with
    | Except.error e => Except.error e
    | Except.ok b =>
      match exMapM f l with
      | Except.error e => Except.error e
      | Except.ok bs => Except.ok (b :: bs)

/-- One vertex of `boundingBox.normalizedVertices`; `x`/`y` are absent
(`none`) when the provider omits the field, read via `.get("x", 0)`. -/
structure Vertex where
  x : Option Rat
  y : Option Rat
deriving DecidableEq, Repr

/-- One element of a word's `symbols` array; `text` is the `"text"` key. -/
structure GSymbol where
  text : Option String
deriving DecidableEq, Repr

/-- One element of a paragraph's `words` array: `"boundingBox"` (itself
holding `"normalizedVertices"`) and `"symbols"`. -/
structure GWord where
  boundingBox : Option (Option (List Vertex))
  symbols : Option (List GSymbol)
deriving DecidableEq, Repr

/-- One element of a block's `paragraphs` array. -/
structure GParagraph where
  words : Option (List GWord)
deriving DecidableEq, Repr

/-- One element of an annotation page's `blocks` array. -/
structure GBlock where
  paragraphs : Option (List GParagraph)
deriving DecidableEq, Repr

/-- One element of the annotation's `pages` array. -/
structure AnnPage where
  blocks : Option (List GBlock)
deriving DecidableEq, Repr

/-- The value of the `"fullTextAnnotation"` key: a dictionary with keys
`"text"` and `"pages"`. -/
structure FullTextAnn where
  text : Option String
  pages : Option (List AnnPage)
deriving DecidableEq, Repr

/-- Python truthiness of the annotation dictionary (`if annotation:` at
line 148): a dictionary is truthy iff it is non-empty, i.e. iff it has
at least one of its keys. -/
def FullTextAnn.truthy (a : FullTextAnn) : Bool :=
  a.text.isSome || a.pages.isSome

/-- One element of a shard's `"responses"` array; its
`"fullTextAnnotation"` key is absent (`none`) or a dictionary. -/
structure TextResponse where
  fullTextAnn : Option FullTextAnn
deriving DecidableEq, Repr

/-- One downloaded, JSON-decoded shard; `responses` is the `"responses"`
key read at line 143 (outside the `try`, so its absence is unhandled). -/
structure Shard where
  responses : Option (List TextResponse)
deriving DecidableEq, Repr

/-- One entry of a page's `positions` array (lines 172-178). -/
structure WordPosition where
  text : String
  x1 : Rat
  x2 : Rat
  y1 : Rat
  y2 : Rat
deriving DecidableEq, Repr

/-- One entry of the `pages` payload patched at line 203. -/
structure Page where
  page_number : Nat
  text : String
  ocr : String
  positions : List WordPosition
deriving DecidableEq, Repr

/-- The coordinate check of line 171:
`0 <= x1 <= 1 and 0 <= x2 <= 1 and 0 <= y1 <= 1 and 0 <= y2 <= 1`. -/
def inRangePos (p : WordPosition) : Bool :=
  decide (0 ≤ p.x1 ∧ p.x1 ≤ 1 ∧ 0 ≤ p.x2 ∧ p.x2 ≤ 1
    ∧ 0 ≤ p.y1 ∧ p.y1 ≤ 1 ∧ 0 ≤ p.y2 ∧ p.y2 ≤ 1)

/-- Lines 161-170: for one word, read
`normalizedVertices = word["boundingBox"]["normalizedVertices"]`, then
`x1 = normalizedVertices[0].get("x", 0)`,
`x2 = normalizedVertices[1].get("x", 0)`,
`y1 = normalizedVertices[0].get("y", 0)`,
`y2 = normalizedVertices[2].get("y", 0)`, then
`full_text = ''.join(symbol["text"] for symbol in word["symbols"])`,
with Python's evaluation (and exception) order. -/
def wordRaw (w : GWord) : Except PyErr WordPosition :=
  match getKey w.boundingBox "boundingBox" with
  | Except.error e => Except.error e
  | Except.ok bb =>
    match getKey bb "normalizedVertices" with
    | Except.error e => Except.error e
    | Except.ok nv =>
      match pyIndex nv 0 with
      | Except.error e => Except.error e
      | Except.ok v0 =>
        match pyIndex nv 1 with
        | Except.error e => Except.error e
        | Except.ok v1 =>
          match pyIndex nv 2 with
          | Except.error e => Except.error e
          | Except.ok v2 =>
            match getKey w.symbols "symbols" with
            | Except.error e => Except.error e
            | Except.ok syms =>
              match exMapM (fun s => getKey s.text "text") syms with
              | Except.error e => Except.error e
              | Except.ok texts =>
                Except.ok
                  { text := String.join texts
                    x1 := (v0.x).getD 0
                    x2 := (v1.x).getD 0
                    y1 := (v0.y).getD 0
                    y2 := (v2.y).getD 0 }

/-- Lines 161-180 for one word: the computed `WordPosition` is kept only
when the range check of line 171 passes, otherwise the word alone is
discarded (`none`). -/
def wordPosition (w : GWord) : Except PyErr (Option WordPosition) :=
  match wordRaw w with
  | Except.error e => Except.error e
  | Except.ok pos =>
    Except.ok (if inRangePos pos then some pos else none)

/-- Line 160: `for word in paragraph["words"]`, collecting the kept
positions of the paragraph's words in traversal order. -/
def paragraphPositions (p : GParagraph) : Except PyErr (List WordPosition) :=
  match getKey p.words "words" with
  | Except.error e => Except.error e
  | Except.ok ws =>
    match exMapM wordPosition ws with
    | Except.error e => Except.error e
    | Except.ok opts => Except.ok (opts.filterMap id)

/-- Line 159: `for paragraph in block["paragraphs"]`. -/
def blockPositions (b : GBlock) : Except PyErr (List WordPosition) :=
  match getKey b.paragraphs "paragraphs" with
  | Except.error e => Except.error e
  | Except.ok ps =>
    match exMapM paragraphPositions ps with
    | Except.error e => Except.error e
    | Except.ok ls => Except.ok ls.flatten

/-- Line 158: `for block in ann_page["blocks"]`. -/
def annPagePositions (pg : AnnPage) : Except PyErr (List WordPosition) :=
  match getKey pg.blocks "blocks" with
  | Except.error e => Except.error e
  | Except.ok bs =>
    match exMapM blockPositions bs with
    | Except.error e => Except.error e
    | Except.ok ls => Except.ok ls.flatten

/-- Line 157: `for ann_page in annotation["pages"]`. -/
def annPositions (a : FullTextAnn) : Except PyErr (List WordPosition) :=
  match getKey a.pages "pages" with
  | Except.error e => Except.error e
  | Except.ok pgs =>
    match exMapM annPagePositions pgs with
    | Except.error e => Except.error e
    | Except.ok ls => Except.ok ls.flatten

/-- The empty page of lines 184-189: `{"page_number": i, "text": "",
"ocr": "googlecv", "positions": []}`. -/
def emptyPage (i : Nat) : Page :=
  { page_number := i, text := "", ocr := "googlecv", positions := [] }

/-- Lines 146-190 for one response unit of shard `i`:
`annotation = text_response.get("fullTextAnnotation")`; when truthy,
build the page dictionary (reading `annotation["text"]` first, line 151)
and walk the hierarchy for positions; otherwise append the empty page. -/
def buildPage (i : Nat) (tr : TextResponse) : Except PyErr Page :=
  match tr.fullTextAnn with
  | none => Except.ok (emptyPage i)
  | some a =>
    if a.truthy then
      match getKey a.text "text" with
      | Except.error e => Except.error e
      | Except.ok t =>
        match annPositions a with
        | Except.error e => Except.error e
        | Except.ok posns =>
          Except.ok { page_number := i, text := t, ocr := "googlecv", positions := posns }
    else Except.ok (emptyPage i)

/-- How `set_doc_text` terminates when it does not reach the patch call:
`fatalExit e` is the `except KeyError` / `except ValueError` path
(lines 191-200: `set_message` plus `sys.exit(1)`); `unhandled e` is an
exception no handler catches (the interpreter aborts with a traceback). -/
inductive Stop where
  | fatalExit (e : PyErr)
  | unhandled (e : PyErr)
deriving DecidableEq, Repr

/-- The handlers of lines 191-200: `KeyError` and `ValueError` raised
inside the `try` become the fatal-exit path; anything else —
in particular `IndexError` — is unhandled. -/
def handleErr (e : PyErr) : Stop :=
  match e with
  | PyErr.keyErr k => Stop.fatalExit (PyErr.keyErr k)
  | PyErr.valueErr => Stop.fatalExit PyErr.valueErr
  | PyErr.indexErr => Stop.unhandled PyErr.indexErr

/-- Lines 141-200 for the shard at enumeration index `i`: read
`response["responses"]` (line 143, outside the `try`, so a missing key
is unhandled), then process each response unit in order; the first
exception ends the whole run. -/
def shardPages (i : Nat) (s : Shard) : Except Stop (List Page) :=
  match s.responses with
  | none => Except.error (Stop.unhandled (PyErr.keyErr "responses"))
  | some trs =>
    match exMapM (buildPage i) trs with
    | Except.error e => Except.error (handleErr e)
    | Except.ok ps => Except.ok ps

/-- The loop `for i, blob in enumerate(blobs_list)` of line 140,
accumulating pages in order, starting at enumeration index `i`. -/
def setDocTextGo : Nat → List Shard → Except Stop (List Page)
  | _, [] => Except.ok []
  | i, s :: rest =>
    match shardPages i s with
    | Except.error st => Except.error st
    | Except.ok ps =>
      match setDocTextGo (i + 1) rest with
      | Except.error st => Except.error st
      | Except.ok qs => Except.ok (ps ++ qs)

/-- `set_doc_text` (lines 137-203) over the downloaded, decoded shards
in `list_blobs` order.  `Except.ok ps` means the run reached line 203
and patched the document with page list `ps`; `Except.error` means the
run terminated earlier and the document was never patched. -/
def setDocText (blobs : List Shard) : Except Stop (List Page) :=
  setDocTextGo 0 blobs

/-- The persisted page list of a run: `some ps` when the patch call of
line 203 executed with payload `ps`, `none` when it never executed. -/
def persistedPages (r : Except Stop (List Page)) : Option (List Page) :=
  match r with
  | Except.ok ps => some ps
  | Except.error _ => none

/-- Stable insertion by ascending key length (ties keep the earlier
element first), the building block of `listBlobsOrder`. -/
def lenInsert (a : String) : List String → List String
  | [] => [a]
  | b :: l => if a.length ≤ b.length then a :: b :: l else b :: lenInsert a l

/-- The ordering of `list_blobs` (line 133):
`sorted(blobs_list, key=lambda blob: len(blob.name))` — Python's sort is
stable and the key is the name's length only, so this is a stable sort
by key length; blobs are modelled by their names. -/
def listBlobsOrder : List String → List String
  | [] => []
  | a :: l => lenInsert a (listBlobsOrder l)

/-- Python's `<=` on strings, on the underlying character lists: strict
code-point comparison at the first differing position, with a prefix
comparing below any extension. -/
def strLeb : List Char → List Char → Bool
  | [], _ => true
  | _ :: _, [] => false
  | a :: as, b :: bs =>
    if a.toNat < b.toNat then true
    else if b.toNat < a.toNat then false
    else strLeb as bs

/-- Python's lexicographic `a <= b` on strings (code-point order). -/
def pyLe (a b : String) : Prop := strLeb a.data b.data = true

instance : DecidableRel pyLe := fun a b => by unfold pyLe; infer_instance

/-- Key-length-ascending order with Python-lexicographic tie-break: the
order the spec claims for the shard keys returned by `list_blobs`. -/
def lenLex (a b : String) : Prop :=
  a.length < b.length ∨ (a.length = b.length ∧ pyLe a b)

/-- Statement-side helper: the raw (pre-filter) word data of a
paragraph's words, in traversal order. -/
def paragraphRaw (p : GParagraph) : Except PyErr (List WordPosition) :=
  match getKey p.words "words" with
  | Except.error e => Except.error e
  | Except.ok ws => exMapM wordRaw ws

/-- Statement-side helper: the raw word data of a block, in
paragraph-then-word traversal order. -/
def blockRaw (b : GBlock) : Except PyErr (List WordPosition) :=
  match getKey b.paragraphs "paragraphs" with
  | Except.error e => Except.error e
  | Except.ok ps =>
    match exMapM paragraphRaw ps with
    | Except.error e => Except.error e
    | Except.ok ls => Except.ok ls.flatten

/-- Statement-side helper: the raw word data of one annotation page, in
block-then-paragraph-then-word traversal order. -/
def annPageRaw (pg : AnnPage) : Except PyErr (List WordPosition) :=
  match getKey pg.blocks "blocks" with
  | Except.error e => Except.error e
  | Except.ok bs =>
    match exMapM blockRaw bs with
    | Except.error e => Except.error e
    | Except.ok ls => Except.ok ls.flatten

/-- Statement-side helper: the raw word data of the whole annotation in
traversal order. -/
def annRaw (a : FullTextAnn) : Except PyErr (List WordPosition) :=
  match getKey a.pages "pages" with
  | Except.error e => Except.error e
  | Except.ok pgs =>
    match exMapM annPageRaw pgs with
    | Except.error e => Except.error e
    | Except.ok ls => Except.ok ls.flatten

/-- Total number of response units across all shards (for an absent
`"responses"` key the run aborts anyway, so it counts as zero here). -/
def totalUnits (blobs : List Shard) : Nat :=
  (blobs.map (fun s => (s.responses.getD []).length)).sum

/-- Python-truthiness of the optional `"fullTextAnnotation"` value as
tested by `if annotation:` (line 148): `None` (absent key) and the empty
dictionary are falsy. -/
def annTruthy : Option FullTextAnn → Bool
  | none => false
  | some a => a.truthy

/-- Example vertex (0, 0): the top-left corner read for `x1`/`y1`. -/
def exVert0 : Vertex := { x := some 0, y := some 0 }

/-- Example vertex with `y` absent; only its `x` is read (for `x2`). -/
def exVert1 : Vertex := { x := some 1, y := none }

/-- Example vertex with both fields absent: its `y` is read for `y2`
and defaults to 0. -/
def exVert2 : Vertex := { x := none, y := none }

/-- Example word "hi" with three vertices and in-range coordinates. -/
def exWord : GWord :=
  { boundingBox := some (some [exVert0, exVert1, exVert2])
    symbols := some [{ text := some "h" }, { text := some "i" }] }

/-- The position computed for `exWord`. -/
def exPos : WordPosition := { text := "hi", x1 := 0, x2 := 1, y1 := 0, y2 := 0 }

/-- Example word "x" whose `x1 = 2` and `x2 = 3` lie outside `[0, 1]`. -/
def badWord : GWord :=
  { boundingBox := some (some
      [{ x := some 2, y := some 0 }, { x := some 3, y := none },
        { x := none, y := some 1 }])
    symbols := some [{ text := some "x" }] }

/-- The (out-of-range) position computed for `badWord`. -/
def badPos : WordPosition := { text := "x", x1 := 2, x2 := 3, y1 := 0, y2 := 1 }

/-- Example paragraph holding one in-range and one out-of-range word. -/
def exPara : GParagraph := { words := some [exWord, badWord] }

/-- Example block holding `exPara`. -/
def exBlock : GBlock := { paragraphs := some [exPara] }

/-- Example annotation page holding `exBlock`. -/
def exAnnPage : AnnPage := { blocks := some [exBlock] }

/-- Example full-text annotation with text "hi\n" and one page. -/
def exAnn : FullTextAnn := { text := some "hi\n", pages := some [exAnnPage] }

/-- Example shard: one response unit carrying `exAnn`. -/
def exShard : Shard := { responses := some [{ fullTextAnn := some exAnn }] }

/-- The page produced from `exShard` at shard index 0: `badWord` is
dropped, `exWord` is kept. -/
def exPage : Page :=
  { page_number := 0, text := "hi\n", ocr := "googlecv", positions := [exPos] }

/-- The page numbers the run persisted, when it patched at all. -/
def pageNums (r : Except Stop (List Page)) : Option (List Nat) :=
  (persistedPages r).map (List.map Page.page_number)

/-- A shard whose annotation is truthy (it has `"pages"`) but lacks the
required `"text"` key: building its page raises `KeyError("text")`. -/
def noTextShard : Shard :=
  { responses := some [{ fullTextAnn := some { text := none, pages := some [] } }] }

/-- A word whose `normalizedVertices` has only two entries: reading
`normalized_vertices[2]` raises `IndexError`. -/
def shortVertWord : GWord :=
  { boundingBox := some (some
      [{ x := some 0, y := some 0 }, { x := some 1, y := some 0 }])
    symbols := some [{ text := some "a" }] }

/-- The paragraph, block, page and annotation wrapping `shortVertWord`. -/
def shortVertPara : GParagraph := { words := some [shortVertWord] }

/-- The block holding `shortVertPara`. -/
def shortVertBlock : GBlock := { paragraphs := some [shortVertPara] }

/-- The annotation page holding `shortVertBlock`. -/
def shortVertAnnPage : AnnPage := { blocks := some [shortVertBlock] }

/-- The full-text annotation holding `shortVertAnnPage`. -/
def shortVertAnn : FullTextAnn :=
  { text := some "a\n", pages := some [shortVertAnnPage] }

/-- An otherwise-parseable shard containing `shortVertWord`. -/
def shortVertShard : Shard :=
  { responses := some [{ fullTextAnn := some shortVertAnn }] }

theorem mem_lenInsert (x a : String) (l : List String) :
    x ∈ lenInsert a l ↔ x = a ∨ x ∈ l := by
  induction l with
  | nil => simp [lenInsert]
  | cons b l ih =>
    by_cases h : a.length ≤ b.length
    · simp only [lenInsert, if_pos h, List.mem_cons]
    · simp only [lenInsert, if_neg h, List.mem_cons, ih]
      tauto

theorem mem_listBlobsOrder (x : String) (l : List String) :
    x ∈ listBlobsOrder l ↔ x ∈ l := by
  induction l with
  | nil => simp [listBlobsOrder]
  | cons a l ih =>
    simp [listBlobsOrder, mem_lenInsert, ih]

theorem sorted_lenInsert (a : String) (l : List String)
    (hs : List.Sorted lenLex l) (hall : ∀ b ∈ l, pyLe a b) :
    List.Sorted lenLex (lenInsert a l) := by
  induction l with
  | nil => simp [lenInsert]
  | cons b l ih =>
    rw [List.sorted_cons] at hs
    obtain ⟨hb, hl⟩ := hs
    by_cases h : a.length ≤ b.length
    · simp only [lenInsert, if_pos h]
      rw [List.sorted_cons]
      refine ⟨?_, (List.sorted_cons).mpr ⟨hb, hl⟩⟩
      intro x hx
      rcases List.mem_cons.mp hx with hxb | hxl
      · subst hxb
        rcases Nat.lt_or_ge a.length x.length with hlt | hge
        · exact Or.inl hlt
        · exact Or.inr ⟨Nat.le_antisymm h hge, hall x (List.mem_cons_self _ _)⟩
      · rcases hb x hxl with hlt | ⟨heq, _⟩
        · exact Or.inl (Nat.lt_of_le_of_lt h hlt)
        · rcases Nat.lt_or_ge a.length x.length with hlt2 | hge2
          · exact Or.inl hlt2
          · refine Or.inr ⟨Nat.le_antisymm (heq ▸ h) hge2, ?_⟩
            exact hall x (List.mem_cons_of_mem b hxl)
    · simp only [lenInsert, if_neg h]
      rw [List.sorted_cons]
      constructor
      · intro x hx
        rcases (mem_lenInsert x a l).mp hx with hxa | hxl
        · subst hxa
          exact Or.inl (Nat.lt_of_not_le h)
        · exact hb x hxl
      · exact ih hl (fun c hc => hall c (List.mem_cons_of_mem b hc))

theorem listBlobsOrder_sorted (l : List String) (h : List.Sorted pyLe l) :
    List.Sorted lenLex (listBlobsOrder l) := by
  induction l with
  | nil => simp [listBlobsOrder]
  | cons a l ih =>
    rw [List.sorted_cons] at h
    exact sorted_lenInsert a _ (ih h.2)
      (fun b hb => h.1 b ((mem_listBlobsOrder b l).mp hb))

/-- C1, counterexample.  `list_blobs` sorts only by key length
(stably); it performs no secondary lexicographic sort.  For the listing
order `["p_2_", "p_10_", "p_1_"]` named by the claim, the returned
order is `["p_2_", "p_1_", "p_10_"]` (equal-length keys keep their
listing order), not the claimed `["p_1_", "p_2_", "p_10_"]`. -/
theorem C1_counterexample :
    listBlobsOrder ["p_2_", "p_10_", "p_1_"] = ["p_2_", "p_1_", "p_10_"] ∧
      ((listBlobsOrder ["p_2_", "p_10_", "p_1_"]
        == ["p_1_", "p_2_", "p_10_"]) = false) := by
  decide

/-- C1, amended.  `list_blobs` applies a *stable* ascending sort on key
length only; whenever the underlying listing is already
lexicographically ordered (as the blob store returns it), the result is
sorted by length-then-lexicographic order, and the lexicographically
ordered listing of the keys `"p_1_"`, `"p_2_"`, `"p_10_"` is returned
as `["p_1_", "p_2_", "p_10_"]`. -/
theorem C1_length_sort_stable (l : List String) (h : List.Sorted pyLe l) :
    List.Sorted lenLex (listBlobsOrder l) ∧
      listBlobsOrder ["p_10_", "p_1_", "p_2_"] = ["p_1_", "p_2_", "p_10_"] :=
  ⟨listBlobsOrder_sorted l h, by decide⟩

/-- C1, witness: the amended theorem applied to the lexicographically
sorted listing `["p_10_", "p_1_", "p_2_"]`. -/
theorem C1_witness :
    List.Sorted lenLex (listBlobsOrder ["p_10_", "p_1_", "p_2_"]) ∧
      listBlobsOrder ["p_10_", "p_1_", "p_2_"] = ["p_1_", "p_2_", "p_10_"] :=
  C1_length_sort_stable ["p_10_", "p_1_", "p_2_"] (by decide)

theorem exMapM_cons_ok_inv {α β : Type} (f : α → Except PyErr β) (a : α) (l : List α)
    (bs2 : List β) (h : exMapM f (a :: l) = Except.ok bs2) :
    ∃ b bs, f a = Except.ok b ∧ exMapM f l = Except.ok bs ∧ bs2 = b :: bs := by
  simp only [exMapM] at h
  split at h
  · cases h
  · rename_i b ha
    split at h
    · cases h
    · rename_i bs hl
      cases h
      exact ⟨b, bs, ha, hl, rfl⟩

theorem exMapM_ok_length {α β : Type} (f : α → Except PyErr β) :
    ∀ (l : List α) (bs : List β), exMapM f l = Except.ok bs → bs.length = l.length := by
  intro l
  induction l with
  | nil =>
    intro bs h
    simp only [exMapM] at h
    cases h
    rfl
  | cons a l ih =>
    intro bs2 h
    obtain ⟨b, bs, _, hl, rfl⟩ := exMapM_cons_ok_inv f a l bs2 h
    simp [ih bs hl]

theorem exMapM_ok_mem {α β : Type} (f : α → Except PyErr β) :
    ∀ (l : List α) (bs : List β), exMapM f l = Except.ok bs →
      ∀ b ∈ bs, ∃ a ∈ l, f a = Except.ok b := by
  intro l
  induction l with
  | nil =>
    intro bs h
    simp only [exMapM] at h
    cases h
    intro b hb
    exact absurd hb (List.not_mem_nil b)
  | cons a l ih =>
    intro bs2 h
    obtain ⟨b, bs, ha, hl, rfl⟩ := exMapM_cons_ok_inv f a l bs2 h
    intro c hc
    rcases List.mem_cons.mp hc with rfl | hc2
    · exact ⟨a, List.mem_cons_self _ _, ha⟩
    · obtain ⟨a2, ha2, hfa2⟩ := ih bs hl c hc2
      exact ⟨a2, List.mem_cons_of_mem _ ha2, hfa2⟩

theorem exMapM_ok_forall {α β : Type} (f : α → Except PyErr β) :
    ∀ (l : List α) (bs : List β), exMapM f l = Except.ok bs →
      ∀ a ∈ l, ∃ b, f a = Except.ok b := by
  intro l
  induction l with
  | nil =>
    intro bs _ a ha
    exact absurd ha (List.not_mem_nil a)
  | cons a0 l ih =>
    intro bs2 h
    obtain ⟨b, bs, ha, hl, rfl⟩ := exMapM_cons_ok_inv f a0 l bs2 h
    intro a hc
    rcases List.mem_cons.mp hc with rfl | hc2
    · exact ⟨b, ha⟩
    · exact ih bs hl a hc2

theorem exMapM_ok_get {α β : Type} (f : α → Except PyErr β) :
    ∀ (l : List α) (bs : List β), exMapM f l = Except.ok bs →
      ∀ (j : Nat) (a : α), l.get? j = some a →
        ∃ b, bs.get? j = some b ∧ f a = Except.ok b := by
  intro l
  induction l with
  | nil =>
    intro bs _ j a hj
    simp [List.get?] at hj
  | cons a0 l ih =>
    intro bs2 h j a hj
    obtain ⟨b, bs, ha, hl, rfl⟩ := exMapM_cons_ok_inv f a0 l bs2 h
    cases j with
    | zero =>
      simp only [List.get?] at hj
      cases hj
      exact ⟨b, rfl, ha⟩
    | succ j =>
      simp only [List.get?] at hj
      obtain ⟨c, hc, hfc⟩ := ih bs hl j a hj
      exact ⟨c, hc, hfc⟩

theorem exMapM_congr {α β : Type} (f g : α → Except PyErr β) (l : List α)
    (h : ∀ a ∈ l, f a = g a) : exMapM f l = exMapM g l := by
  induction l with
  | nil => rfl
  | cons a l ih =>
    simp only [exMapM, h a (List.mem_cons_self _ _),
      ih (fun b hb => h b (List.mem_cons_of_mem _ hb))]

theorem exMapM_map_of {α β γ : Type} (g : α → Except PyErr γ) (f : α → Except PyErr β)
    (h : β → γ) (hg : ∀ a, g a = (f a).map h) (l : List α) :
    exMapM g l = (exMapM f l).map (List.map h) := by
  induction l with
  | nil => rfl
  | cons a l ih =>
    simp only [exMapM, hg a, ih]
    cases f a with
    | error e => simp [Except.map]
    | ok b =>
      cases exMapM f l with
      | error e => simp [Except.map]
      | ok bs => simp [Except.map]

theorem wordPosition_eq (w : GWord) :
    wordPosition w
      = (wordRaw w).map (fun pos => if inRangePos pos then some pos else none) := by
  unfold wordPosition
  cases wordRaw w <;> rfl

theorem filterMap_id_map_if {α : Type} (p : α → Bool) (l : List α) :
    (l.map (fun a => if p a then some a else none)).filterMap id = l.filter p := by
  induction l with
  | nil => rfl
  | cons r l ih =>
    rw [List.map_cons, List.filter_cons]
    cases hr : p r
    · rw [List.filterMap_cons_none rfl, ih, if_neg (by decide)]
    · have hsome : id (if (true = true) then some r else none) = some r := rfl
      rw [List.filterMap_cons_some hsome, ih, if_pos rfl]

theorem flatten_map_filter {α : Type} (p : α → Bool) (ls : List (List α)) :
    (ls.map (fun l => l.filter p)).flatten = ls.flatten.filter p := by
  induction ls with
  | nil => rfl
  | cons l ls ih =>
    rw [List.map_cons, List.flatten_cons, List.flatten_cons, List.filter_append, ih]

theorem paragraphPositions_eq (p : GParagraph) :
    paragraphPositions p
      = (paragraphRaw p).map (fun l => l.filter (fun r => inRangePos r)) := by
  unfold paragraphPositions paragraphRaw
  cases p.words with
  | none => rfl
  | some ws =>
    simp only [getKey]
    rw [exMapM_map_of wordPosition wordRaw
      (fun pos => if inRangePos pos then some pos else none) wordPosition_eq ws]
    cases exMapM wordRaw ws with
    | error e => rfl
    | ok raws =>
      simp only [Except.map]
      rw [filterMap_id_map_if inRangePos raws]

theorem blockPositions_eq (b : GBlock) :
    blockPositions b
      = (blockRaw b).map (fun l => l.filter (fun r => inRangePos r)) := by
  unfold blockPositions blockRaw
  cases b.paragraphs with
  | none => rfl
  | some ps =>
    simp only [getKey]
    rw [exMapM_map_of paragraphPositions paragraphRaw
      (fun l => l.filter (fun r => inRangePos r)) paragraphPositions_eq ps]
    cases exMapM paragraphRaw ps with
    | error e => rfl
    | ok ls =>
      simp only [Except.map]
      rw [flatten_map_filter inRangePos ls]

theorem annPagePositions_eq (pg : AnnPage) :
    annPagePositions pg
      = (annPageRaw pg).map (fun l => l.filter (fun r => inRangePos r)) := by
  unfold annPagePositions annPageRaw
  cases pg.blocks with
  | none => rfl
  | some bs =>
    simp only [getKey]
    rw [exMapM_map_of blockPositions blockRaw
      (fun l => l.filter (fun r => inRangePos r)) blockPositions_eq bs]
    cases exMapM blockRaw bs with
    | error e => rfl
    | ok ls =>
      simp only [Except.map]
      rw [flatten_map_filter inRangePos ls]

theorem annPositions_eq (a : FullTextAnn) :
    annPositions a
      = (annRaw a).map (fun l => l.filter (fun r => inRangePos r)) := by
  unfold annPositions annRaw
  cases a.pages with
  | none => rfl
  | some pgs =>
    simp only [getKey]
    rw [exMapM_map_of annPagePositions annPageRaw
      (fun l => l.filter (fun r => inRangePos r)) annPagePositions_eq pgs]
    cases exMapM annPageRaw pgs with
    | error e => rfl
    | ok ls =>
      simp only [Except.map]
      rw [flatten_map_filter inRangePos ls]

theorem annPositions_inRange (a : FullTextAnn) (l : List WordPosition)
    (h : annPositions a = Except.ok l) : ∀ r ∈ l, inRangePos r = true := by
  rw [annPositions_eq] at h
  cases hr : annRaw a with
  | error e => rw [hr] at h; cases h
  | ok raws =>
    rw [hr] at h
    simp only [Except.map] at h
    cases h
    intro r hrm
    exact (List.mem_filter.mp hrm).2

theorem buildPage_inRange (i : Nat) (tr : TextResponse) (p : Page)
    (h : buildPage i tr = Except.ok p) : ∀ r ∈ p.positions, inRangePos r = true := by
  unfold buildPage at h
  split at h
  · cases h
    intro r hr
    exact absurd hr (List.not_mem_nil r)
  · rename_i a ha
    split at h
    · split at h
      · cases h
      · rename_i t ht
        split at h
        · cases h
        · rename_i posns hp
          cases h
          intro r hr
          exact annPositions_inRange a posns hp r hr
    · cases h
      intro r hr
      exact absurd hr (List.not_mem_nil r)

theorem shardPages_inRange (i : Nat) (s : Shard) (ps : List Page)
    (h : shardPages i s = Except.ok ps) :
    ∀ p ∈ ps, ∀ r ∈ p.positions, inRangePos r = true := by
  unfold shardPages at h
  split at h
  · cases h
  · rename_i trs hres
    split at h
    · cases h
    · rename_i ps2 hm
      cases h
      intro p hp
      obtain ⟨tr, _, htr⟩ := exMapM_ok_mem (buildPage i) trs ps hm p hp
      exact buildPage_inRange i tr p htr

theorem setDocTextGo_inRange : ∀ (blobs : List Shard) (i : Nat) (pages : List Page),
    setDocTextGo i blobs = Except.ok pages →
    ∀ p ∈ pages, ∀ r ∈ p.positions, inRangePos r = true := by
  intro blobs
  induction blobs with
  | nil =>
    intro i pages h
    simp only [setDocTextGo] at h
    cases h
    intro p hp
    exact absurd hp (List.not_mem_nil p)
  | cons s rest ih =>
    intro i pages h
    simp only [setDocTextGo] at h
    split at h
    · cases h
    · rename_i ps hs
      split at h
      · cases h
      · rename_i qs hq
        cases h
        intro p hp
        rcases List.mem_append.mp hp with h1 | h2
        · exact shardPages_inRange i s ps hs p h1
        · exact ih (i + 1) qs hq p h2

theorem shardPages_ok_length (i : Nat) (s : Shard) (ps : List Page)
    (h : shardPages i s = Except.ok ps) :
    ps.length = (s.responses.getD []).length := by
  unfold shardPages at h
  split at h
  · cases h
  · rename_i trs hres
    split at h
    · cases h
    · rename_i ps2 hm
      cases h
      rw [hres, Option.getD_some]
      exact exMapM_ok_length (buildPage i) trs ps hm

theorem setDocTextGo_length : ∀ (blobs : List Shard) (i : Nat) (pages : List Page),
    setDocTextGo i blobs = Except.ok pages → pages.length = totalUnits blobs := by
  intro blobs
  induction blobs with
  | nil =>
    intro i pages h
    simp only [setDocTextGo] at h
    cases h
    rfl
  | cons s rest ih =>
    intro i pages h
    simp only [setDocTextGo] at h
    split at h
    · cases h
    · rename_i ps hs
      split at h
      · cases h
      · rename_i qs hq
        cases h
        unfold totalUnits
        rw [List.length_append, List.map_cons, List.sum_cons,
          shardPages_ok_length i s ps hs, ih (i + 1) qs hq]
        rfl

/-- C3: whenever `set_doc_text` reaches the patch call, the emitted page
list has exactly one page per response unit across all shards — no
response unit is silently dropped, with or without a full-text
annotation. -/
theorem C3_page_count (blobs : List Shard) (pages : List Page)
    (h : setDocText blobs = Except.ok pages) : pages.length = totalUnits blobs :=
  setDocTextGo_length blobs 0 pages h

/-- C3, witness: two shards with one response unit each (one annotated,
one not) yield exactly two pages. -/
theorem C3_witness :
    ([exPage, emptyPage 1] : List Page).length
      = totalUnits [exShard, ⟨some [⟨none⟩]⟩] :=
  C3_page_count [exShard, ⟨some [⟨none⟩]⟩] [exPage, emptyPage 1] rfl

/-- C4: every position in any page of a successful run has all four
coordinates in `[0, 1]` (no out-of-range value ever appears), and for a
paragraph whose words compute raw data `raws`, the emitted positions
are exactly the in-range elements of `raws` in order: a word appears
iff all four of its coordinates lie in `[0, 1]`, and an out-of-range
word is discarded alone while the rest of the page is kept. -/
theorem C4_word_filter (blobs : List Shard) (pages : List Page)
    (hok : setDocText blobs = Except.ok pages)
    (p : Page) (hp : p ∈ pages) (pos : WordPosition) (hpos : pos ∈ p.positions)
    (pg : GParagraph) (ws : List GWord) (raws : List WordPosition)
    (hw : pg.words = some ws) (hr : exMapM wordRaw ws = Except.ok raws) :
    inRangePos pos = true ∧
      paragraphPositions pg = Except.ok (raws.filter (fun r => inRangePos r)) := by
  refine ⟨setDocTextGo_inRange blobs 0 pages hok p hp pos hpos, ?_⟩
  rw [paragraphPositions_eq]
  unfold paragraphRaw
  rw [hw]
  simp only [getKey]
  rw [hr]
  rfl

/-- C4, witness: a run over `exShard` keeps `exPos`, and the paragraph
with raw data `[exPos, badPos]` emits exactly the in-range filter of it
(dropping only `badPos`). -/
theorem C4_witness :
    inRangePos exPos = true ∧
      paragraphPositions exPara
        = Except.ok ([exPos, badPos].filter (fun r => inRangePos r)) :=
  C4_word_filter [exShard] [exPage] rfl exPage (List.mem_singleton.mpr rfl)
    exPos (List.mem_singleton.mpr rfl) exPara [exWord, badWord] [exPos, badPos]
    rfl rfl

theorem buildPage_falsy (i : Nat) (tr : TextResponse)
    (h : annTruthy tr.fullTextAnn = false) :
    buildPage i tr = Except.ok (emptyPage i) := by
  cases htr : tr.fullTextAnn with
  | none => simp only [buildPage, htr]
  | some a =>
    have h2 : a.truthy = false := by rw [htr] at h; exact h
    simp only [buildPage, htr]
    rw [if_neg (fun hc => Bool.false_ne_true (h2 ▸ hc))]

/-- C5: a response unit whose `fullTextAnnotation` is absent or falsy
contributes the page `{page_number: i, text: "", ocr: "googlecv",
positions: []}` at its own index `j` of the shard's output — the page
is emitted, not omitted. -/
theorem C5_empty_page (i : Nat) (s : Shard) (trs : List TextResponse)
    (ps : List Page) (hres : s.responses = some trs)
    (h : shardPages i s = Except.ok ps) (j : Nat) (tr : TextResponse)
    (hj : trs.get? j = some tr) (hfalsy : annTruthy tr.fullTextAnn = false) :
    ps.get? j = some (emptyPage i) ∧
      emptyPage i
        = { page_number := i, text := "", ocr := "googlecv", positions := [] } := by
  refine ⟨?_, rfl⟩
  unfold shardPages at h
  split at h
  · cases h
  · rename_i trs2 hres2
    split at h
    · cases h
    · rename_i ps2 hm
      cases h
      rw [hres] at hres2
      cases hres2
      obtain ⟨b, hb, hfb⟩ := exMapM_ok_get (buildPage i) trs ps hm j tr hj
      rw [buildPage_falsy i tr hfalsy] at hfb
      cases hfb
      exact hb

/-- C5, witness: shard index 1 with a single annotation-free response
unit yields the empty page numbered 1 at position 0. -/
theorem C5_witness :
    ([emptyPage 1] : List Page).get? 0 = some (emptyPage 1) ∧
      emptyPage 1
        = { page_number := 1, text := "", ocr := "googlecv", positions := [] } :=
  C5_empty_page 1 ⟨some [⟨none⟩]⟩ [⟨none⟩] [emptyPage 1] rfl rfl 0 ⟨none⟩ rfl rfl

theorem getKey_eq_ok {α : Type} (a : α) (k : String) :
    getKey (some a) k = Except.ok a := rfl

/-- C6: `x1` is read from the `x` of vertex 0, `x2` from the `x` of
vertex 1, `y1` from the `y` of vertex 0 and `y2` from the `y` of
vertex 2; a present vertex with a missing `x`/`y` field contributes the
default 0 instead of an error. -/
theorem C6_vertex_extraction (w : GWord) (nv : List Vertex) (v0 v1 v2 : Vertex)
    (syms : List GSymbol) (texts : List String)
    (hbb : w.boundingBox = some (some nv))
    (h0 : nv.get? 0 = some v0) (h1 : nv.get? 1 = some v1) (h2 : nv.get? 2 = some v2)
    (hs : w.symbols = some syms)
    (ht : exMapM (fun s => getKey s.text "text") syms = Except.ok texts) :
    wordRaw w = Except.ok
      { text := String.join texts, x1 := (v0.x).getD 0, x2 := (v1.x).getD 0,
        y1 := (v0.y).getD 0, y2 := (v2.y).getD 0 } := by
  simp only [wordRaw, hbb, getKey_eq_ok, pyIndex, h0, h1, h2, hs, ht]

/-- C6, witness: `exWord`, whose vertex 2 has no `y` field, still
parses, with `y2` defaulting to 0. -/
theorem C6_witness :
    wordRaw exWord = Except.ok
      { text := String.join ["h", "i"], x1 := (exVert0.x).getD 0,
        x2 := (exVert1.x).getD 0, y1 := (exVert0.y).getD 0,
        y2 := (exVert2.y).getD 0 } :=
  C6_vertex_extraction exWord [exVert0, exVert1, exVert2] exVert0 exVert1 exVert2
    [{ text := some "h" }, { text := some "i" }] ["h", "i"] rfl rfl rfl rfl rfl rfl

theorem wordRaw_text (w : GWord) (pos : WordPosition) (syms : List GSymbol)
    (texts : List String) (hs : w.symbols = some syms)
    (ht : exMapM (fun s => getKey s.text "text") syms = Except.ok texts)
    (hw : wordRaw w = Except.ok pos) : pos.text = String.join texts := by
  unfold wordRaw at hw
  split at hw
  · cases hw
  · split at hw
    · cases hw
    · split at hw
      · cases hw
      · split at hw
        · cases hw
        · split at hw
          · cases hw
          · split at hw
            · cases hw
            · rename_i syms2 hsyms
              split at hw
              · cases hw
              · rename_i texts2 ht2
                cases hw
                rw [hs] at hsyms
                simp only [getKey] at hsyms
                cases hsyms
                rw [ht] at ht2
                cases ht2
                rfl

/-- C7: a word's position text is the concatenation of its symbol texts
in order, and an annotation page's positions are exactly the in-range
filter of the raw block→paragraph→word traversal sequence — same order,
nothing reordered or deduplicated. -/
theorem C7_traversal_order (w : GWord) (syms : List GSymbol) (texts : List String)
    (pos : WordPosition) (hs : w.symbols = some syms)
    (ht : exMapM (fun s => getKey s.text "text") syms = Except.ok texts)
    (hw : wordRaw w = Except.ok pos)
    (pg : AnnPage) (raws : List WordPosition)
    (hr : annPageRaw pg = Except.ok raws) :
    pos.text = String.join texts ∧
      annPagePositions pg = Except.ok (raws.filter (fun r => inRangePos r)) := by
  refine ⟨wordRaw_text w pos syms texts hs ht hw, ?_⟩
  rw [annPagePositions_eq, hr]
  rfl

/-- C7, witness: `exWord`'s text is `"h" ++ "i"`, and the example page
keeps `[exPos, badPos]` in traversal order, filtered in place. -/
theorem C7_witness :
    exPos.text = String.join ["h", "i"] ∧
      annPagePositions exAnnPage
        = Except.ok ([exPos, badPos].filter (fun r => inRangePos r)) :=
  C7_traversal_order exWord [{ text := some "h" }, { text := some "i" }]
    ["h", "i"] exPos rfl rfl rfl exAnnPage [exPos, badPos] rfl

theorem buildPage_page_number (i : Nat) (tr : TextResponse) (p : Page)
    (h : buildPage i tr = Except.ok p) : p.page_number = i := by
  unfold buildPage at h
  split at h
  · cases h
    rfl
  · split at h
    · split at h
      · cases h
      · split at h
        · cases h
        · cases h
          rfl
    · cases h
      rfl

theorem buildPage_map (i : Nat) (tr : TextResponse) :
    buildPage i tr
      = (buildPage 0 tr).map (fun p => { p with page_number := i }) := by
  cases htr : tr.fullTextAnn with
  | none => simp only [buildPage, htr]; rfl
  | some a =>
    simp only [buildPage, htr]
    by_cases ht : a.truthy = true
    · rw [if_pos ht, if_pos ht]
      cases getKey a.text "text" with
      | error e => rfl
      | ok t =>
        cases annPositions a with
        | error e => rfl
        | ok posns => rfl
    · rw [if_neg ht, if_neg ht]
      rfl

theorem setDocTextGo_numbers : ∀ (blobs : List Shard) (i : Nat) (pages : List Page),
    (∀ s ∈ blobs, ∃ tr, s.responses = some [tr]) →
    setDocTextGo i blobs = Except.ok pages →
    pages.map Page.page_number = List.range' i pages.length := by
  intro blobs
  induction blobs with
  | nil =>
    intro i pages _ h
    simp only [setDocTextGo] at h
    cases h
    rfl
  | cons s0 rest ih =>
    intro i pages hone h
    simp only [setDocTextGo] at h
    split at h
    · cases h
    · rename_i ps hs0
      split at h
      · cases h
      · rename_i qs hq
        cases h
        obtain ⟨tr, htr⟩ := hone s0 (List.mem_cons_self _ _)
        unfold shardPages at hs0
        split at hs0
        · cases hs0
        · rename_i trs2 hres2
          rw [htr] at hres2
          cases hres2
          split at hs0
          · cases hs0
          · rename_i ps2 hm
            cases hs0
            obtain ⟨b, bs, hb, hnil, rfl⟩ := exMapM_cons_ok_inv (buildPage i) tr [] ps hm
            simp only [exMapM] at hnil
            cases hnil
            have hbn := buildPage_page_number i tr b hb
            have hih := ih (i + 1) qs
              (fun s hs => hone s (List.mem_cons_of_mem _ hs)) hq
            simp only [List.singleton_append, List.length_cons, List.map_cons]
            rw [List.range'_succ, hbn, hih]

/-- C2, counterexample: a single shard whose `responses` array carries
two response units yields page numbers `[0, 0]` — both pages get the
shard's index — not the claimed running index `[0, 1]`. -/
theorem C2_counterexample :
    pageNums (setDocText [⟨some [⟨none⟩, ⟨none⟩]⟩]) = some [0, 0] ∧
      ((pageNums (setDocText [⟨some [⟨none⟩, ⟨none⟩]⟩]) == some [0, 1]) = false) :=
  ⟨rfl, rfl⟩

/-- C2, amended: the `page_number` of every emitted page is the index of
the shard it came from, not a running index over response units; when
every shard carries exactly one response unit (the `batch_size = 1`
configuration), the page numbers are exactly `0..N-1`, contiguous and
zero-based, even when pages are empty. -/
theorem C2_page_numbers (blobs : List Shard) (pages : List Page)
    (hone : ∀ s ∈ blobs, ∃ tr, s.responses = some [tr])
    (hok : setDocText blobs = Except.ok pages) :
    pages.map Page.page_number = List.range pages.length ∧
      pages.length = totalUnits blobs := by
  refine ⟨?_, setDocTextGo_length blobs 0 pages hok⟩
  rw [List.range_eq_range']
  exact setDocTextGo_numbers blobs 0 pages hone hok

/-- C2, witness: two one-unit shards yield pages numbered `[0, 1]`. -/
theorem C2_witness :
    ([emptyPage 0, emptyPage 1] : List Page).map Page.page_number
        = List.range ([emptyPage 0, emptyPage 1] : List Page).length ∧
      ([emptyPage 0, emptyPage 1] : List Page).length
        = totalUnits [⟨some [⟨none⟩]⟩, ⟨some [⟨none⟩]⟩] :=
  C2_page_numbers [⟨some [⟨none⟩]⟩, ⟨some [⟨none⟩]⟩] [emptyPage 0, emptyPage 1]
    (by
      intro s hs
      rcases List.mem_cons.mp hs with rfl | hs2
      · exact ⟨⟨none⟩, rfl⟩
      · rcases List.mem_cons.mp hs2 with rfl | hs3
        · exact ⟨⟨none⟩, rfl⟩
        · exact absurd hs3 (List.not_mem_nil s))
    rfl

theorem setDocTextGo_ok_units : ∀ (blobs : List Shard) (i : Nat) (pages : List Page),
    setDocTextGo i blobs = Except.ok pages →
    ∀ s ∈ blobs, ∀ trs, s.responses = some trs →
      ∀ tr ∈ trs, ∃ p, buildPage 0 tr = Except.ok p := by
  intro blobs
  induction blobs with
  | nil =>
    intro i pages _ s hs
    exact absurd hs (List.not_mem_nil s)
  | cons s0 rest ih =>
    intro i pages h
    simp only [setDocTextGo] at h
    split at h
    · cases h
    · rename_i ps hs0
      split at h
      · cases h
      · rename_i qs hq
        intro s hsmem trs htrs tr htr
        rcases List.mem_cons.mp hsmem with rfl | hmem
        · unfold shardPages at hs0
          split at hs0
          · cases hs0
          · rename_i trs2 hres2
            split at hs0
            · cases hs0
            · rename_i ps2 hm
              rw [htrs] at hres2
              cases hres2
              obtain ⟨b, hb⟩ := exMapM_ok_forall (buildPage i) trs ps2 hm tr htr
              rw [buildPage_map i tr] at hb
              cases hbp : buildPage 0 tr with
              | error e => rw [hbp] at hb; cases hb
              | ok q => exact ⟨q, rfl⟩
        · exact ih (i + 1) qs hq s hmem trs htrs tr htr

theorem run_err_no_patch (blobs : List Shard) (s : Shard) (hs : s ∈ blobs)
    (trs : List TextResponse) (hres : s.responses = some trs)
    (tr : TextResponse) (htr : tr ∈ trs) (e : PyErr)
    (he : buildPage 0 tr = Except.error e) :
    persistedPages (setDocText blobs) = none := by
  cases hrun : setDocText blobs with
  | error st => rfl
  | ok pages =>
    obtain ⟨p, hp⟩ := setDocTextGo_ok_units blobs 0 pages hrun s hs trs hres tr htr
    rw [he] at hp
    cases hp

/-- C9: when any response unit raises the structural `KeyError` (or a
`ValueError`) while its page is being built, the run terminates before
the patch call of line 203, so the document's persisted page list is
never updated — not even with the pages already assembled from earlier
shards. -/
theorem C9_no_partial_patch (blobs : List Shard) (s : Shard) (hs : s ∈ blobs)
    (trs : List TextResponse) (hres : s.responses = some trs)
    (tr : TextResponse) (htr : tr ∈ trs) (k : String)
    (he : buildPage 0 tr = Except.error (PyErr.keyErr k)
      ∨ buildPage 0 tr = Except.error PyErr.valueErr) :
    persistedPages (setDocText blobs) = none := by
  rcases he with he | he
  · exact run_err_no_patch blobs s hs trs hres tr htr (PyErr.keyErr k) he
  · exact run_err_no_patch blobs s hs trs hres tr htr PyErr.valueErr he

/-- C9, witness: a run over `noTextShard` never patches the document. -/
theorem C9_witness :
    persistedPages (setDocText [noTextShard]) = none :=
  C9_no_partial_patch [noTextShard] noTextShard (List.mem_singleton.mpr rfl)
    [{ fullTextAnn := some { text := none, pages := some [] } }] rfl
    { fullTextAnn := some { text := none, pages := some [] } }
    (List.mem_singleton.mpr rfl) "text" (Or.inl rfl)

/-- C8, counterexample: with zero shards the locator returns `[]` and
the run reaches the patch call with an empty page list — the same
success outcome, same constructor, as a normal successful run (compare
the one-shard run): no distinct condition is surfaced. -/
theorem C8_counterexample :
    listBlobsOrder [] = [] ∧
      setDocText [] = Except.ok [] ∧
      setDocText [exShard] = Except.ok [exPage] :=
  ⟨rfl, rfl, rfl⟩

/-- C8, amended: an empty listing yields an empty shard sequence (no
error), and the run produces zero pages, completing through the normal
patch path by persisting an empty page list — with no error and no
distinct zero-shard signal. -/
theorem C8_empty_listing :
    listBlobsOrder [] = [] ∧ persistedPages (setDocText []) = some [] :=
  ⟨rfl, rfl⟩

/-- C10: on `shortVertShard` the run aborts with an unhandled
`IndexError` — caught by neither the `KeyError` handler nor the
`ValueError` handler — instead of the fatal-message exit path. -/
theorem C10_index_error :
    setDocText [shortVertShard] = Except.error (Stop.unhandled PyErr.indexErr) := rfl
